import Mathlib

/-!
Verification of the BizTone extension's risk-assessment and guard-decision
engine (src/background.js, src/contentScript.js) against its specification.

Conventions of the embedding:
* JS strings are modelled as `List Char` (sequences of Unicode scalar values);
  `String` is used at API boundaries and converted via `String.data`.
* Risk scores are represented exactly in integer TENTHS of a point
  (`ℤ`): the JS constants 0.5, 0.3 and 1 become 5, 3 and 10, the clamp
  `Math.min(score, 10)` becomes `min score 100`, and the prefilter cap
  `Math.min(6, profanityScore)` keeps the profanity subtotal in points and
  scales by 10 when added to the score.  Every JS score is a sum of
  multiples of 0.1, so this representation is exact (no approximation).
* `String.prototype.toLowerCase` and `String.prototype.normalize('NFD')`
  are platform Unicode primitives; they are modelled on the fragment of
  Unicode that this development manipulates (ASCII, the Latin-1 letter
  E-acute with its canonical decomposition, Hangul, punctuation); all
  characters outside the fragment are treated as case-stable and
  canonically non-decomposable.
* The JS regular-expression engine applied to user-supplied list patterns
  (`new RegExp(item.text, 'i').test(s)`, returning false for an invalid
  pattern) is abstracted as an arbitrary total function
  `re : String → String → Bool`; theorems quantify over it.
-/

set_option maxHeartbeats 1000000

namespace BizTone

/-- JS `String.prototype.includes`: `needle` occurs contiguously in `hay`. -/
def jsIncludes (hay needle : List Char) : Bool :=
  (List.range (hay.length + 1)).any (fun i => needle.isPrefixOf (hay.drop i))

/-- The ECMAScript `\s` class (WhiteSpace ∪ LineTerminator), also the set
trimmed by `String.prototype.trim`. -/
def isJsWhitespace (c : Char) : Bool :=
  ([9, 10, 11, 12, 13, 32, 0xA0, 0x1680, 0x2028, 0x2029, 0x202F, 0x205F,
    0x3000, 0xFEFF] : List Nat).contains c.toNat
  || (0x2000 ≤ c.toNat && c.toNat ≤ 0x200A)

/-- Zero-width characters stripped by `TextUtils.normalizeKoreanText`
(src/background.js:764): the class `[​-‍﻿]`. -/
def isZeroWidthChar (c : Char) : Bool :=
  (0x200B ≤ c.toNat && c.toNat ≤ 0x200D) || c.toNat = 0xFEFF

/-- Combining diacritical marks stripped by `TextUtils.normalizeKoreanText`
(src/background.js:765): the class `[̀-ͯ]`. -/
def isCombiningMark (c : Char) : Bool :=
  0x300 ≤ c.toNat && c.toNat ≤ 0x36F

/-- Code points of the non-whitespace members of the separator class stripped
by `TextUtils.normalizeKoreanText` (src/background.js:766):
`- _ . ~ ! @ # $ % ^ & * ( ) + = { } [ ] | \ : ; " ' < > , ? /`. -/
def separatorCodes : List Nat :=
  [45, 95, 46, 126, 33, 64, 35, 36, 37, 94, 38, 42, 40, 41, 43, 61,
   123, 125, 91, 93, 124, 92, 58, 59, 34, 39, 60, 62, 44, 63, 47]

/-- The separator class `[\s\-_.~!@#$%^&*()+={}[\]|\\:;"'<>,.?/]` of
`TextUtils.normalizeKoreanText` (src/background.js:766). -/
def isSeparatorChar (c : Char) : Bool :=
  isJsWhitespace c || separatorCodes.contains c.toNat

/-- JS `String.prototype.toLowerCase`, modelled on the fragment of Unicode
this development manipulates: the ASCII letters A–Z map to a–z and the
precomposed Latin-1 letter U+00C9 (E acute) maps to U+00E9; every other
character of the fragment is case-stable and maps to itself. -/
def jsToLower (c : Char) : Char :=
  if 65 ≤ c.toNat ∧ c.toNat ≤ 90 then Char.ofNat (c.toNat + 32)
  else if c.toNat = 0xC9 then Char.ofNat 0xE9
  else c

/-- Unicode canonical decomposition (NFD) of one character, modelled on the
same fragment: U+00E9 and U+00C9 decompose to the base letter followed by
U+0301 COMBINING ACUTE ACCENT; every other character of the fragment has no
canonical decomposition. -/
def nfdChar (c : Char) : List Char :=
  if c.toNat = 0xE9 then [Char.ofNat 0x65, Char.ofNat 0x301]
  else if c.toNat = 0xC9 then [Char.ofNat 0x45, Char.ofNat 0x301]
  else [c]

/-- JS `String.prototype.normalize('NFD')` over the fragment model. -/
def nfdString (l : List Char) : List Char :=
  l.foldr (fun c acc => nfdChar c ++ acc) []

/-- The pipeline of `TextUtils.normalizeKoreanText` before its final
`.normalize('NFD')` step: lowercase, strip zero-width characters, strip
combining diacritical marks, strip separators (src/background.js:762-766). -/
def preNfd (l : List Char) : List Char :=
  (((l.map jsToLower).filter (fun c => !isZeroWidthChar c)).filter
      (fun c => !isCombiningMark c)).filter (fun c => !isSeparatorChar c)

/-- Embedding of `TextUtils.normalizeKoreanText` (src/background.js:761-768): lowercase,
strip zero-width characters, strip combining marks, strip separators, then
apply Unicode canonical decomposition (NFD). -/
def normalizeKoreanText (l : List Char) : List Char :=
  nfdString (preNfd l)

/-- Helper: `dropWhile` never lengthens a list. -/
theorem length_dropWhile_le {α : Type} (p : α → Bool) (l : List α) :
    (l.dropWhile p).length ≤ l.length := by
  induction l with
  | nil => simp [List.dropWhile]
  | cons c cs ih =>
    simp only [List.dropWhile]
    split
    · exact Nat.le_trans ih (Nat.le_succ _)
    · simp

/-- Worker for `collapseWs`: `prevWs` records whether the previous character
belonged to a whitespace run whose replacement space was already emitted. -/
def collapseWsAux (prevWs : Bool) : List Char → List Char
  | [] => []
  | c :: cs =>
    if isJsWhitespace c then
      if prevWs then collapseWsAux true cs
      else Char.ofNat 32 :: collapseWsAux true cs
    else c :: collapseWsAux false cs

/-- JS whitespace-collapsing step of `TextUtils.normalizeText`
(src/background.js:752-754) and the content script's `normalizeText`
(src/contentScript.js:227-229): `replace(/\s+/g, " ")` rewrites each maximal
whitespace run to a single space. -/
def collapseWs (l : List Char) : List Char :=
  collapseWsAux false l

/-- JS `String.prototype.trim`: strip leading and trailing `\s` characters. -/
def jsTrim (l : List Char) : List Char :=
  ((l.dropWhile isJsWhitespace).reverse.dropWhile isJsWhitespace).reverse

/-- Embedding of `TextUtils.normalizeText` and the content script's `normalizeText`:
`(text || "").replace(/\s+/g, " ").trim()`. -/
def normalizeText (l : List Char) : List Char :=
  jsTrim (collapseWs l)

/-- Number of maximal runs of the character `c`, the length of
`(text.match(/c+/g) || [])` for a single-character pattern. -/
def countCharRunsAux (c : Char) (inRun : Bool) : List Char → ℕ
  | [] => 0
  | x :: xs =>
    if x = c then (if inRun then 0 else 1) + countCharRunsAux c true xs
    else countCharRunsAux c false xs

/-- Number of maximal runs of the character `c` in a text, the length of
`(text.match(/c+/g) || [])` for a single-character pattern `c`. -/
def countCharRuns (c : Char) (l : List Char) : ℕ :=
  countCharRunsAux c false l

/-- The ECMAScript `\w` class `[A-Za-z0-9_]` (used by the `\b` assertion). -/
def isWordChar (c : Char) : Bool :=
  (48 ≤ c.toNat && c.toNat ≤ 57) || (65 ≤ c.toNat && c.toNat ≤ 90)
  || (97 ≤ c.toNat && c.toNat ≤ 122) || c.toNat = 95

/-- The class `[A-Za-z]`. -/
def isLatinLetter (c : Char) : Bool :=
  (65 ≤ c.toNat && c.toNat ≤ 90) || (97 ≤ c.toNat && c.toNat ≤ 122)

/-- The class `[A-Z]`. -/
def isUpperLatin (c : Char) : Bool :=
  65 ≤ c.toNat && c.toNat ≤ 90

/-- The maximal runs of `\w` characters of a text, in order. -/
def wordRuns : List Char → List (List Char)
  | [] => []
  | c :: cs =>
    if isWordChar c then
      ((c :: cs).takeWhile isWordChar) :: wordRuns (cs.dropWhile isWordChar)
    else wordRuns cs
termination_by l => l.length
decreasing_by
  · simp only [List.length_cons]
    have := length_dropWhile_le isWordChar cs
    omega
  · simp

/-- The test `/\b[A-Z]{4,}\b/.test(text)` (src/contentScript.js:584).  Since
`[A-Z] ⊆ \w`, a match needs a `\b` boundary on both sides of a block of four
or more capitals, which holds exactly when some maximal `\w` run consists
entirely of `[A-Z]` and has length at least 4. -/
def hasBoundedUpperRun (text : List Char) : Bool :=
  (wordRuns text).any (fun r => 4 ≤ r.length && r.all isUpperLatin)

/-- Hangul precomposed syllables U+AC00–U+D7A3 (the class `[가-힣]`). -/
def isHangulSyllable (c : Char) : Bool :=
  0xAC00 ≤ c.toNat && c.toNat ≤ 0xD7A3

/-- The test `/[가-힣]{2,}해라\b|[가-힣]{2,}하라\b/.test(text)`
(src/contentScript.js:590).  Hangul syllables are outside `\w`, so the
trailing `\b` after `라` holds exactly when the next character exists and is
a `\w` character; a match therefore needs two Hangul syllables, then `해라`
or `하라`, then a `\w` character. -/
def hasImperativeEnding (text : List Char) : Bool :=
  (List.range text.length).any (fun i =>
    match text.drop i with
    | a :: b :: c :: d :: e :: _ =>
      isHangulSyllable a && isHangulSyllable b && (c == '해' || c == '하')
        && d == '라' && isWordChar e
    | _ => false)

/-! ### Hangul skeleton extraction (src/background.js:841-874) -/

/-- The 19 initial consonants (초성) table of `extractKoreanSkeleton`. -/
def skeletonInitials : List String :=
  ["ㄱ", "ㄲ", "ㄴ", "ㄷ", "ㄸ", "ㄹ", "ㅁ", "ㅂ", "ㅃ", "ㅅ", "ㅆ", "ㅇ",
   "ㅈ", "ㅉ", "ㅊ", "ㅋ", "ㅌ", "ㅍ", "ㅎ"]

/-- The 28 final consonants (종성) table of `extractKoreanSkeleton`; index 0
is the empty final. -/
def skeletonFinals : List String :=
  ["", "ㄱ", "ㄲ", "ㄱㅅ", "ㄴ", "ㄴㅈ", "ㄴㅎ", "ㄷ", "ㄹ", "ㄹㄱ", "ㄹㅁ",
   "ㄹㅂ", "ㄹㅅ", "ㄹㅌ", "ㄹㅍ", "ㄹㅎ", "ㅁ", "ㅂ", "ㅂㅅ", "ㅅ", "ㅆ",
   "ㅇ", "ㅈ", "ㅊ", "ㅋ", "ㅌ", "ㅍ", "ㅎ"]

/-- Per-character step of `extractKoreanSkeleton`: a precomposed Hangul
syllable is decomposed via `index = code - 0xAC00`, `initial = index / 588`,
`final = index % 28`, emitting the initial consonant and, when non-zero, the
final consonant; standalone jamo (U+3131–U+3163) and every other character
pass through unchanged. -/
def skeletonChar (c : Char) : List Char :=
  let code := c.toNat
  if 0xAC00 ≤ code ∧ code ≤ 0xD7A3 then
    let syllableIndex := code - 0xAC00
    let initialIndex := syllableIndex / 588
    let finalIndex := syllableIndex % 28
    ((skeletonInitials.getD initialIndex "").data)
      ++ (if 0 < finalIndex then (skeletonFinals.getD finalIndex "").data else [])
  else if 0x3131 ≤ code ∧ code ≤ 0x3163 then [c]
  else [c]

/-- Embedding of `extractKoreanSkeleton` (src/background.js:841-874). -/
def extractKoreanSkeleton (l : List Char) : List Char :=
  (l.map skeletonChar).flatten

/-! ### Pattern compilation (src/background.js:876-964) -/

/-- Code points escaped by `TextUtils.escapeRegex` (src/background.js:775-777):
`. * + ? ^ $ { } ( ) | [ ] \`. -/
def regexEscapeCodes : List Nat :=
  [46, 42, 43, 63, 94, 36, 123, 125, 40, 41, 124, 91, 93, 92]

/-- Embedding of `TextUtils.escapeRegex`: prefix each regex metacharacter with a backslash. -/
def escapeRegex (l : List Char) : List Char :=
  (l.map (fun c =>
    if regexEscapeCodes.contains c.toNat then [Char.ofNat 92, c] else [c])).flatten

/-- The noise-character class source interleaved between pattern characters
(src/background.js:884). -/
def noiseClass : List Char :=
  "[\\p\x7bZ\x7d\\p\x7bP\x7d\\p\x7bS\x7d\\u200B-\\u200F\\u202A-\\u202E\\u2060\\uFEFF]*".data

/-- Regex source built by interleaving the noise class between the escaped
characters of a word: `word.split('').map(escapeRegex).join(noise)`. -/
def buildNoisySource (word : List Char) : List Char :=
  ((word.map (fun c => escapeRegex [c])).intersperse noiseClass).flatten

/-- A lexicon record `{word, category, locale}` from
`data/fword_categories.json`. -/
structure LexiconItem where
  word : String
  category : String
  locale : String
deriving DecidableEq

/-- Embedding of `getCategoryWeight` (src/background.js:944-952): the enhanced scorer's
category-weight table `{strong: 4, slur: 4, adult: 2, weak: 1}` with default
weight 1 for unknown categories. -/
def getCategoryWeight (category : String) : ℕ :=
  if category = "strong" then 4
  else if category = "slur" then 4
  else if category = "adult" then 2
  else if category = "weak" then 1
  else 1

/-- A compiled pattern (src/background.js:879-908).  The two regex testers
built from the noisy sources are abstracted as functions of the tested text;
`generateCategorizedPattern` instantiates them through the abstracted regex
engine `re : source → input → Bool`. -/
structure CompiledPattern where
  word : List Char
  original : List Char
  skeleton : List Char
  pattern : List Char → Bool
  skeletonPattern : List Char → Bool
  category : String
  locale : String
  weight : ℕ

/-- Embedding of `generateCategorizedPattern` (src/background.js:879-908): normalize the
word, extract its skeleton, build the two noise-tolerant matchers, and assign
the category weight from `getCategoryWeight`. -/
def generateCategorizedPattern (re : List Char → List Char → Bool)
    (item : LexiconItem) : CompiledPattern :=
  let normalized := normalizeKoreanText item.word.data
  let skeleton := extractKoreanSkeleton normalized
  { word := normalized
    original := item.word.data
    skeleton := skeleton
    pattern := re (buildNoisySource normalized)
    skeletonPattern := re (buildNoisySource skeleton)
    category := item.category
    locale := item.locale
    weight := getCategoryWeight item.category }

/-! ### Contextual risk (src/background.js:1163-1204) -/

/-- The fixed aggressive-vocabulary list of `calculateContextualRisk`
(src/background.js:1187). -/
def aggressivePatterns : List String :=
  ["당장", "빨리", "책임져", "최악", "짜증", "열받", "죽을"]

/-- Result `{score, factors}` of `calculateContextualRisk`; `score` is in
tenths of a point. -/
structure ContextualRisk where
  score : ℤ
  factors : List String
deriving DecidableEq

/-- Loop body of the aggressive-word scan of `calculateContextualRisk`
(src/background.js:1188-1193): `+0.3` and a factor per list word contained in
the text. -/
def ctxAggStep (text : List Char) (acc : ℤ × List String) (word : String) :
    ℤ × List String :=
  if jsIncludes text word.data = true then
    (acc.1 + 3, acc.2 ++ ["aggressive_" ++ word])
  else acc

/-- Embedding of `calculateContextualRisk` (src/background.js:1163-1204).  The uppercase
condition `letters.length >= 6 && uppercase.length / letters.length >= 0.5`
is written division-free as `6 ≤ letters ∧ letters ≤ 2 * uppercase`, which is
equivalent for exact arithmetic on these counts. -/
def calculateContextualRisk (text : List Char) : ContextualRisk :=
  let exclamationCount := countCharRuns '!' text
  let questionCount := countCharRuns '?' text
  let acc1 : ℤ × List String :=
    if 2 ≤ exclamationCount then (5, ["excessive_exclamation"]) else (0, [])
  let acc2 :=
    if 2 ≤ questionCount then (acc1.1 + 5, acc1.2 ++ ["excessive_question"]) else acc1
  let acc3 :=
    if jsIncludes text "?!".data = true ∨ jsIncludes text "!?".data = true then
      (acc2.1 + 5, acc2.2 ++ ["mixed_punctuation"])
    else acc2
  let acc4 := aggressivePatterns.foldl (ctxAggStep text) acc3
  let letters := text.countP isLatinLetter
  let uppercase := text.countP isUpperLatin
  let acc5 :=
    if 6 ≤ letters ∧ letters ≤ 2 * uppercase then
      (acc4.1 + 5, acc4.2 ++ ["excessive_caps"])
    else acc4
  ⟨acc5.1, acc5.2⟩

/-! ### Enhanced risk scoring (src/background.js:1097-1158) -/

/-- A recorded pattern match of `calculateAdvancedRiskScore`. -/
structure PatternMatch where
  word : List Char
  original : List Char
  category : String
  locale : String
  weight : ℕ
  type : String
deriving DecidableEq

/-- The per-category match counters `categoryStats`. -/
structure CategoryStats where
  strong : ℕ
  weak : ℕ
  adult : ℕ
  slur : ℕ
deriving DecidableEq

/-- The increment `categoryStats[pattern.category]++` for the four tracked categories (a
category outside the table would write to a stray object key; no tracked
counter changes in that case). -/
def bumpStats (st : CategoryStats) (category : String) : CategoryStats :=
  if category = "strong" then { st with strong := st.strong + 1 }
  else if category = "weak" then { st with weak := st.weak + 1 }
  else if category = "adult" then { st with adult := st.adult + 1 }
  else if category = "slur" then { st with slur := st.slur + 1 }
  else st

/-- Result of `calculateAdvancedRiskScore`; `score`, `contextualScore` and
`patternScore` are in tenths of a point.  The empty-text branch of the source
returns an object without `riskLevel`, modelled as `none`. -/
structure AdvancedRisk where
  score : ℤ
  matchList : List PatternMatch
  contextualScore : ℤ
  contextualFactors : List String
  categoryStats : CategoryStats
  riskLevel : Option String
  patternScore : ℤ

/-- Loop body of the pattern scan of `calculateAdvancedRiskScore`
(src/background.js:1111-1129): a hit of the literal matcher on the
normalized text or of the skeleton matcher on the skeleton adds the
pattern's weight, records a match tagged `direct` or `skeleton`, and bumps
the category counter. -/
def advStep (normalized skeleton : List Char)
    (acc : ℤ × List PatternMatch × CategoryStats) (p : CompiledPattern) :
    ℤ × List PatternMatch × CategoryStats :=
  let directMatch := p.pattern normalized
  let skeletonMatch := p.skeletonPattern skeleton
  if directMatch || skeletonMatch then
    (acc.1 + 10 * (p.weight : ℤ),
     acc.2.1 ++ [{ word := p.word, original := p.original,
                   category := p.category, locale := p.locale,
                   weight := p.weight,
                   type := if directMatch then "direct" else "skeleton" }],
     bumpStats acc.2.2 p.category)
  else acc

/-- Embedding of `calculateAdvancedRiskScore` (src/background.js:1097-1158): test every
compiled pattern's literal matcher against the normalized text and its
skeleton matcher against the skeleton, add each hit's category weight, add
the contextual score, clamp to 10 points, and derive the risk level
(`>= 4 → HIGH`, `>= 2 → MEDIUM`, else `LOW`). -/
def calculateAdvancedRiskScore (patterns : List CompiledPattern)
    (text : List Char) : AdvancedRisk :=
  let normalized := normalizeKoreanText text
  let skeleton := extractKoreanSkeleton normalized
  if normalized.isEmpty then
    { score := 0, matchList := [], contextualScore := 0, contextualFactors := [],
      categoryStats := ⟨0, 0, 0, 0⟩, riskLevel := none, patternScore := 0 }
  else
    let acc := patterns.foldl (advStep normalized skeleton) (0, [], ⟨0, 0, 0, 0⟩)
    let contextScore := calculateContextualRisk text
    let score := acc.1 + contextScore.score
    let finalScore := min score 100
    let riskLevel := if 40 ≤ finalScore then "HIGH"
      else if 20 ≤ finalScore then "MEDIUM" else "LOW"
    { score := finalScore, matchList := acc.2.1,
      contextualScore := contextScore.score,
      contextualFactors := contextScore.factors,
      categoryStats := acc.2.2, riskLevel := some riskLevel,
      patternScore := acc.1 }

/-! ### Whitelist / blacklist (`ListManager`, src/background.js:95-692) -/

/-- A user list item (`id` and `createdAt` are opaque bookkeeping and are
omitted; `match` is a reserved word in Lean and is named `matchType`).
`weight` is meaningful for blacklist items only. -/
structure ListItem where
  text : String
  matchType : String
  locale : String
  weight : ℤ
deriving DecidableEq

/-- Embedding of `ListManager.validateListItem` (src/background.js:391-402): the text must
be non-empty, the match type and locale must be members of the fixed enums,
and a blacklist item's weight must be one of `LIST_CONSTANTS.WEIGHTS`
`{LOW: 1, MEDIUM: 2, HIGH: 3, VERY_HIGH: 4}`. -/
def validateListItem (item : ListItem) (isBlacklist : Bool) : Bool :=
  (item.text != "")
  && (["exact", "contains", "regex"] : List String).contains item.matchType
  && (["ko", "en", "all"] : List String).contains item.locale
  && (!isBlacklist || ([1, 2, 3, 4] : List ℤ).contains item.weight)

/-- JS `String.prototype.toLowerCase` lifted to `String`. -/
def toLowerStr (s : String) : String :=
  ⟨s.data.map jsToLower⟩

/-- JS `String.prototype.includes` lifted to `String`. -/
def jsIncludesS (hay needle : String) : Bool :=
  jsIncludes hay.data needle.data

/-- Embedding of `ListManager.isTextWhitelisted` (src/background.js:604-632): some
whitelist item matches the whitespace-normalized, lowercased text under its
match type, after the locale filter (`item.locale` must be `all` or equal to
the call's locale).  `re` abstracts `new RegExp(item.text, 'i').test`, which
yields false for an invalid pattern. -/
def isTextWhitelisted (re : String → String → Bool) (whitelist : List ListItem)
    (text : String) (locale : String) : Bool :=
  let normalizedText := toLowerStr ⟨normalizeText text.data⟩
  whitelist.any (fun item =>
    if item.locale ≠ "all" ∧ item.locale ≠ locale then false
    else
      let itemText := toLowerStr item.text
      if item.matchType = "exact" then normalizedText == itemText
      else if item.matchType = "contains" then
        jsIncludesS normalizedText itemText || jsIncludesS itemText normalizedText
      else if item.matchType = "regex" then re item.text normalizedText
      else false)

/-- A blacklist match record of `ListManager.getBlacklistMatches`. -/
structure BlacklistMatch where
  item : ListItem
  weight : ℤ
  matchedText : String
deriving DecidableEq

/-- Embedding of `ListManager.getBlacklistMatches` (src/background.js:640-681): collect
the blacklist items matching the normalized lowercased text (`contains` is
one-directional for the blacklist), with their weights. -/
def getBlacklistMatches (re : String → String → Bool) (blacklist : List ListItem)
    (text : String) (locale : String) : List BlacklistMatch :=
  let normalizedText := toLowerStr ⟨normalizeText text.data⟩
  blacklist.filterMap (fun item =>
    if item.locale ≠ "all" ∧ item.locale ≠ locale then none
    else
      let itemText := toLowerStr item.text
      let isMatch :=
        if item.matchType = "exact" then normalizedText == itemText
        else if item.matchType = "contains" then jsIncludesS normalizedText itemText
        else if item.matchType = "regex" then re item.text normalizedText
        else false
      if isMatch then some { item := item, weight := item.weight, matchedText := itemText }
      else none)

/-- Result of `calculateAdvancedRiskScoreWithWhitelist`; scores in tenths. -/
structure GuardRisk where
  score : ℤ
  matchList : List PatternMatch
  contextualScore : ℤ
  contextualFactors : List String
  categoryStats : CategoryStats
  riskLevel : Option String
  blacklistMatches : List BlacklistMatch
  blacklistScore : ℤ
  whitelisted : Bool

/-- Embedding of `calculateAdvancedRiskScoreWithWhitelist` (src/background.js:1235-1270):
whitelist match (checked with the default locale `all`) returns score 0 with
`whitelisted: true`; otherwise run `calculateAdvancedRiskScore`, and when
blacklist matches exist add their summed weights, clamp to 10 points and
recompute the risk level. -/
def calculateAdvancedRiskScoreWithWhitelist (re : String → String → Bool)
    (patterns : List CompiledPattern) (whitelist blacklist : List ListItem)
    (text : String) : GuardRisk :=
  if isTextWhitelisted re whitelist text "all" = true then
    { score := 0, matchList := [], contextualScore := 0, contextualFactors := [],
      categoryStats := ⟨0, 0, 0, 0⟩, riskLevel := some "LOW",
      blacklistMatches := [], blacklistScore := 0, whitelisted := true }
  else
    let result := calculateAdvancedRiskScore patterns text.data
    let blacklistMatches := getBlacklistMatches re blacklist text "all"
    if 0 < blacklistMatches.length then
      let blacklistScore := (blacklistMatches.map (fun m => m.weight)).foldl (· + ·) 0
      let newScore := min (result.score + 10 * blacklistScore) 100
      let riskLevel := if 40 ≤ newScore then "HIGH"
        else if 20 ≤ newScore then "MEDIUM" else "LOW"
      { score := newScore, matchList := result.matchList,
        contextualScore := result.contextualScore,
        contextualFactors := result.contextualFactors,
        categoryStats := result.categoryStats, riskLevel := some riskLevel,
        blacklistMatches := blacklistMatches, blacklistScore := blacklistScore,
        whitelisted := false }
    else
      { score := result.score, matchList := result.matchList,
        contextualScore := result.contextualScore,
        contextualFactors := result.contextualFactors,
        categoryStats := result.categoryStats, riskLevel := result.riskLevel,
        blacklistMatches := [], blacklistScore := 0, whitelisted := false }

/-! ### Synchronous prefilter (`calculateBasicRiskScore`,
src/contentScript.js:502-610) -/

/-- The hardcoded local whitelist of the content script
(src/contentScript.js:115). -/
def LOCAL_WHITELIST : List String :=
  ["시발점", "始發", "시발역", "출발점", "미친 듯이", "미친 척", "개발자",
   "개같이", "열받아"]

/-- The list `RISK_VOCABULARY.AGGRESSIVE` (src/contentScript.js:68). -/
def RISK_VOCABULARY_AGGRESSIVE : List String :=
  ["당장", "빨리", "왜이러", "대체", "책임져", "뭐하", "최악", "말이 됩니까",
   "어이가", "화나", "짜증", "열받", "죽을", "해명", "지금 당장"]

/-- The list `RISK_VOCABULARY.RUDE` (src/contentScript.js:69). -/
def RISK_VOCABULARY_RUDE : List String :=
  ["너네", "니들", "야", "정신차려", "하라는"]

/-- The urgency-word list of the prefilter (src/contentScript.js:596). -/
def urgencyWords : List String :=
  ["당장", "빨리", "지금", "ASAP", "즉시"]

/-- The four profanity word lists loaded from the background
(`PROFANITY_CATEGORIES`, src/contentScript.js:73-78). -/
structure ProfanityCategories where
  strong : List String
  weak : List String
  adult : List String
  slur : List String
deriving DecidableEq

/-- One entry of the prefilter's `categoryChecks` array. -/
structure CategoryCheck where
  words : List String
  weight : ℤ
  category : String
deriving DecidableEq

/-- The prefilter's category table (src/contentScript.js:526-531), in
severity order: `strong: 5`, `adult: 4`, `slur: 4`, `weak: 2` (weights in
points). -/
def categoryChecks (cats : ProfanityCategories) : List CategoryCheck :=
  [{ words := cats.strong, weight := 5, category := "strong" },
   { words := cats.adult, weight := 4, category := "adult" },
   { words := cats.slur, weight := 4, category := "slur" },
   { words := cats.weak, weight := 2, category := "weak" }]

/-- A prefilter profanity match record `{word, category}`. -/
structure ProfMatch where
  word : String
  category : String
deriving DecidableEq

/-- Inner word loop of the prefilter's profanity scan
(src/contentScript.js:534-542), with the early exit once the running
subtotal reaches 6 points (`if (profanityScore >= 6) break`). -/
def profanityInner (text : List Char) (weight : ℤ) (category : String) :
    List String → ℤ × List ProfMatch → ℤ × List ProfMatch
  | [], acc => acc
  | w :: rest, acc =>
    if jsIncludes text w.data = true then
      let acc2 := (acc.1 + weight, acc.2 ++ [{ word := w, category := category }])
      if 6 ≤ acc2.1 then acc2
      else profanityInner text weight category rest acc2
    else profanityInner text weight category rest acc

/-- Outer category loop of the prefilter's profanity scan
(src/contentScript.js:533-544), with the early exit
(`if (profanityScore >= 6) break`). -/
def profanityOuter (text : List Char) :
    List CategoryCheck → ℤ × List ProfMatch → ℤ × List ProfMatch
  | [], acc => acc
  | ch :: rest, acc =>
    let acc2 := profanityInner text ch.weight ch.category ch.words acc
    if 6 ≤ acc2.1 then acc2 else profanityOuter text rest acc2

/-- The same inner word loop with the early exit removed: every matched word
adds its category weight. -/
def profanityInnerFull (text : List Char) (weight : ℤ) (category : String)
    (words : List String) (acc : ℤ × List ProfMatch) : ℤ × List ProfMatch :=
  words.foldl (fun acc w =>
    if jsIncludes text w.data = true then
      (acc.1 + weight, acc.2 ++ [{ word := w, category := category }])
    else acc) acc

/-- The same outer category loop with the early exit removed. -/
def profanityOuterFull (text : List Char) (checks : List CategoryCheck)
    (acc : ℤ × List ProfMatch) : ℤ × List ProfMatch :=
  checks.foldl (fun acc ch =>
    profanityInnerFull text ch.weight ch.category ch.words acc) acc

/-- The `riskFactors` record accumulated by the prefilter. -/
structure RiskFactors where
  profanity : Bool := false
  profanityMatches : List ProfMatch := []
  aggressive : Bool := false
  rude : Bool := false
  punctuation : Bool := false
  uppercase : Bool := false
  imperative : Bool := false
  urgency : Bool := false
deriving DecidableEq

/-- Prefilter result (`score` in tenths of a point).  The source's constant
fields `matches: []`, `contextual: {score: 0, factors: []}` and
`isAdvanced: false` carry no information and are omitted. -/
structure BasicRisk where
  score : ℤ
  whitelisted : Bool
  riskFactors : RiskFactors
deriving DecidableEq

/-- Steps 1-7 of `calculateBasicRiskScore` after the profanity subtotal
`prof` has been computed (src/contentScript.js:546-609): cap the profanity
contribution at 6 points, add capped aggressive/rude counts, punctuation,
uppercase, imperative-ending and urgency contributions.  The final
`Math.round(score * 10) / 10` rounds to one decimal and is the identity on
these exact integer tenths. -/
def basicRiskFromProfanity (text : List Char) (prof : ℤ × List ProfMatch) :
    BasicRisk :=
  let s1 : ℤ := if 0 < prof.1 then 10 * min 6 prof.1 else 0
  let rf1 : RiskFactors :=
    if 0 < prof.1 then { profanity := true, profanityMatches := prof.2 } else {}
  let aggressiveHits := RISK_VOCABULARY_AGGRESSIVE.countP
    (fun w => jsIncludes text w.data)
  let s2 := s1 + (if 0 < aggressiveHits then 10 * min 2 (aggressiveHits : ℤ) else 0)
  let rf2 := if 0 < aggressiveHits then { rf1 with aggressive := true } else rf1
  let rudeHits := RISK_VOCABULARY_RUDE.countP (fun w => jsIncludes text w.data)
  let s3 := s2 + (if 0 < rudeHits then 10 * min 1 (rudeHits : ℤ) else 0)
  let rf3 := if 0 < rudeHits then { rf2 with rude := true } else rf2
  let punct := 2 ≤ countCharRuns '!' text ∨ 2 ≤ countCharRuns '?' text
    ∨ jsIncludes text "?!".data = true ∨ jsIncludes text "!?".data = true
  let s4 := s3 + (if punct then 10 else 0)
  let rf4 := if punct then { rf3 with punctuation := true } else rf3
  let letters := text.countP isLatinLetter
  let uppercase := text.countP isUpperLatin
  let ucase := (6 ≤ letters ∧ letters ≤ 2 * uppercase)
    ∨ hasBoundedUpperRun text = true
  let s5 := s4 + (if ucase then 10 else 0)
  let rf5 := if ucase then { rf4 with uppercase := true } else rf4
  let imp := hasImperativeEnding text = true
  let s6 := s5 + (if imp then 10 else 0)
  let rf6 := if imp then { rf5 with imperative := true } else rf5
  let urg := urgencyWords.any (fun w => jsIncludes text w.data) = true
  let s7 := s6 + (if urg then 5 else 0)
  let rf7 := if urg then { rf6 with urgency := true } else rf6
  { score := s7, whitelisted := false, riskFactors := rf7 }

/-- Embedding of `calculateBasicRiskScore` (src/contentScript.js:502-610): local-whitelist
check, then the profanity scan (with its early exit) followed by the
contextual contributions. -/
def calculateBasicRiskScore (cats : ProfanityCategories) (text : List Char) :
    BasicRisk :=
  if LOCAL_WHITELIST.any (fun w => jsIncludes text w.data) then
    { score := 0, whitelisted := true, riskFactors := {} }
  else
    basicRiskFromProfanity text (profanityOuter text (categoryChecks cats) (0, []))

/-- The same prefilter with the profanity scan's early exit removed (the
comparison algorithm of the short-circuit claim). -/
def calculateBasicRiskScoreNoShortCircuit (cats : ProfanityCategories)
    (text : List Char) : BasicRisk :=
  if LOCAL_WHITELIST.any (fun w => jsIncludes text w.data) then
    { score := 0, whitelisted := true, riskFactors := {} }
  else
    basicRiskFromProfanity text (profanityOuterFull text (categoryChecks cats) (0, []))

/-! ### Result cache (src/contentScript.js:26-29, 620-686, 1962-2008) -/

/-- The constant `CONFIG.CACHE.TTL_MS` (src/contentScript.js:28): 90 seconds. -/
def CONFIG_CACHE_TTL_MS : ℤ := 90000

/-- A cache entry `{timestamp, mode, converted?}` (further result fields are
irrelevant to the cache logic). -/
structure CacheItem where
  timestamp : ℤ
  mode : String
  converted : Option String := none
deriving DecidableEq

/-- A cache (JS `Map` keyed by normalized text), as a lookup function. -/
def CacheMap : Type := String → Option CacheItem

/-- Update one key of a cache (`Map.set` / `Map.delete`). -/
def mapSet (m : CacheMap) (k : String) (v : Option CacheItem) : CacheMap :=
  fun k2 => if k2 = k then v else m k2

/-- Result of `getCachedResult`: the returned item and the caches after any
expiry deletion. -/
structure CacheLookup where
  result : Option CacheItem
  global : CacheMap
  element : Option CacheMap

/-- Global-cache fallback of `getCachedResult` (src/contentScript.js:638-647):
miss on no entry; an entry older than the TTL is deleted and reported as a
miss. -/
def globalCacheLookup (now : ℤ) (key : String) (global : CacheMap)
    (element : Option CacheMap) : CacheLookup :=
  match global key with
  | none => ⟨none, global, element⟩
  | some item =>
    if CONFIG_CACHE_TTL_MS < now - item.timestamp then
      ⟨none, mapSet global key none, element⟩
    else ⟨some item, global, element⟩

/-- Embedding of `getCachedResult` (src/contentScript.js:620-648): consult the
element-specific cache first when one exists for the element (an expired
element entry is deleted and reported as a miss without consulting the global
cache; an absent element entry falls through to the global cache). -/
def getCachedResult (now : ℤ) (text : String) (global : CacheMap)
    (element : Option CacheMap) : CacheLookup :=
  let key : String := ⟨normalizeText text.data⟩
  match element with
  | some ec =>
    match ec key with
    | some item =>
      if CONFIG_CACHE_TTL_MS < now - item.timestamp then
        ⟨none, global, some (mapSet ec key none)⟩
      else ⟨some item, global, some ec⟩
    | none => globalCacheLookup now key global (some ec)
  | none => globalCacheLookup now key global none

/-- Embedding of `setCachedResult` (src/contentScript.js:656-675): store
`{timestamp: Date.now(), ...result}` under the normalized text in the
element-specific cache (when an element is provided) and in the global
cache. -/
def setCachedResult (now : ℤ) (text : String) (mode : String)
    (converted : Option String) (global : CacheMap) (element : Option CacheMap) :
    CacheMap × Option CacheMap :=
  let key : String := ⟨normalizeText text.data⟩
  let cacheItem : CacheItem := { timestamp := now, mode := mode, converted := converted }
  (mapSet global key (some cacheItem),
   element.map (fun ec => mapSet ec key (some cacheItem)))

/-- JS truthiness of an optional string (`undefined` and `""` are falsy). -/
def jsTruthyStr : Option String → Bool
  | none => false
  | some s => s != ""

/-- Outcome of the cache-consultation step of `onKeyDownGuard`. -/
inductive CacheStepOutcome where
  /-- No usable entry: execution falls through to the synchronous prefilter
  and the text is re-scored from scratch. -/
  | miss
  /-- `mode: "send"` hit: the submit is dispatched immediately. -/
  | sentFromCache
  /-- `mode: "warning_acknowledged"` hit: the entry is deleted from both
  caches and the submit is dispatched (one-time pass). -/
  | ackConsumed
  /-- `mode: "convert"` hit with a truthy converted text: the converted text
  is applied and the handler returns. -/
  | usedConverted
  /-- Any other cached mode: the handler returns without side effects. -/
  | usedOther
  /-- `mode: "warning_shown"` hit: the cache is skipped and execution falls
  through to fresh detection. -/
  | freshAfterWarningShown
deriving DecidableEq

/-- The cache-consultation step of `onKeyDownGuard`
(src/contentScript.js:1962-2008), returning its outcome and the caches after
any mutation.  The `warning_acknowledged` branch deletes the key
(`normalizeText(normalizedText)`) from the global cache and from the
element-specific cache before dispatching the send. -/
def guardCacheStep (now : ℤ) (normalizedText : String) (global : CacheMap)
    (element : Option CacheMap) : CacheStepOutcome × CacheMap × Option CacheMap :=
  let r := getCachedResult now normalizedText global element
  match r.result with
  | none => (.miss, r.global, r.element)
  | some cachedResult =>
    if cachedResult.mode = "send" then (.sentFromCache, r.global, r.element)
    else if cachedResult.mode = "warning_acknowledged" then
      let key : String := ⟨normalizeText normalizedText.data⟩
      (.ackConsumed, mapSet r.global key none,
       r.element.map (fun ec => mapSet ec key none))
    else if cachedResult.mode = "convert" ∧ jsTruthyStr cachedResult.converted = true then
      (.usedConverted, r.global, r.element)
    else if cachedResult.mode = "warning_shown" then
      (.freshAfterWarningShown, r.global, r.element)
    else (.usedOther, r.global, r.element)

/-! ### Guard mode (src/contentScript.js:88-91, 262-287;
src/background.js:818-833, 1917-1923) -/

/-- Content-script guard-mode state: the module variables
`__BIZTONE_GUARD_MODE` and `__BIZTONE_GUARD_MODE_CACHED`
(src/contentScript.js:90-91); initially `⟨false, "warn"⟩`. -/
structure GuardModeState where
  cached : Bool
  mode : String
deriving DecidableEq

/-- Outcome of the `BIZTONE_GET_GUARD_MODE` round-trip to the background:
a response carrying a truthy `result.guardMode`, a response without one, or a
thrown messaging error. -/
inductive GuardModeResponse where
  | valid (mode : String)
  | invalid
  | failure
deriving DecidableEq

/-- The content script's `getGuardMode` (src/contentScript.js:262-287) as a
state transition: a cached value is returned as-is without consulting the
background; otherwise a valid response is cached, an invalid response leaves
the state unchanged, and a messaging failure caches the default `"warn"`. -/
def getGuardMode (resp : GuardModeResponse) (s : GuardModeState) :
    String × GuardModeState :=
  if s.cached = true then (s.mode, s)
  else
    match resp with
    | .valid m => (m, ⟨true, m⟩)
    | .invalid => (s.mode, s)
    | .failure => ("warn", ⟨true, "warn"⟩)

/-- The background's `chrome.storage.onChanged` listener for `GUARD_MODE`
(src/background.js:1917-1923): `state.guardModeSettings.GUARD_MODE =
newValue || "warn"`. -/
def storageOnChangedGuardMode (newValue : Option String) : String :=
  match newValue with
  | some s => if s = "" then "warn" else s
  | none => "warn"

/-! ### Decision service (src/background.js:1532-1585, 1671-1686;
src/contentScript.js:36-37, 1855-1892) -/

/-- The fields this code reads from `JSON.parse` of the model response
(absent fields are `none`; a non-object parse result has every field
absent). -/
structure ParsedDecision where
  action : Option String := none
  converted_text : Option String := none
  label : Option String := none
  rationale : Option String := none
deriving DecidableEq

/-- Outcome of `callOpenAI` as seen by `decideTextAction`: a thrown error, or
a response whose `choices[0].message.content` may be absent. -/
inductive ServiceOutcome where
  | failure
  | success (content : Option String)
deriving DecidableEq

/-- The validated result object of `decideTextAction`. -/
structure DecisionResult where
  action : String
  converted_text : String
  label : String
  rationale : String
deriving DecidableEq

/-- Embedding of `decideTextAction` (src/background.js:1532-1585): parse the model content
(`content || "{}"`; an unparsable body yields the empty object), accept the
`action` only when it is `"convert"` or `"send"` and default to `"send"`
otherwise, and on any thrown service error return the fail-safe
`{action: "send", converted_text: ""}`.  `parse` abstracts `JSON.parse`
(returning `none` when it throws). -/
def decideTextAction (parse : String → Option ParsedDecision)
    (outcome : ServiceOutcome) : DecisionResult :=
  match outcome with
  | .failure =>
    { action := "send", converted_text := "", label := "",
      rationale := "결정 실패로 인한 안전 모드" }
  | .success content =>
    let rawResponse := match content with
      | some s => if s = "" then "\x7b\x7d" else s
      | none => "\x7b\x7d"
    let parsed := (parse rawResponse).getD {}
    let action :=
      if parsed.action = some "convert" ∨ parsed.action = some "send" then
        parsed.action.getD "send"
      else "send"
    { action := action, converted_text := parsed.converted_text.getD "",
      label := parsed.label.getD "", rationale := parsed.rationale.getD "" }

/-- The guard-decision response message as seen by the content script:
`{ok: true, ...result}` from `handleGuardDecision` on success, `{ok: false}`
on handler-level errors, or no response at all. -/
structure DecisionResponse where
  ok : Bool
  action : String := ""
  converted_text : String := ""
deriving DecidableEq

/-- The success path of `handleGuardDecision` (src/background.js:1680-1682):
wrap the `decideTextAction` result as `{ok: true, ...result}`. -/
def handleGuardDecision (parse : String → Option ParsedDecision)
    (outcome : ServiceOutcome) : DecisionResponse :=
  let result := decideTextAction parse outcome
  { ok := true, action := result.action, converted_text := result.converted_text }

/-- The constant `CONFIG.GUARD.FAIL_OPEN_ON_DECISION_ERROR` (src/contentScript.js:37). -/
def CONFIG_FAIL_OPEN_ON_DECISION_ERROR : Bool := true

/-- The paths of the decision-response callback in `processGuardResult`. -/
inductive DecisionPath where
  /-- Missing/not-ok response with the fail-open policy: send anyway. -/
  | failOpenSend
  /-- Missing/not-ok response with the fail-closed policy: show a toast. -/
  | failClosedToast
  /-- `action: "send"`: cache `{mode: "send"}` and dispatch the send. -/
  | cachedSend
  /-- Any other action: apply the converted text. -/
  | appliedConvert
deriving DecidableEq

/-- The decision-response callback of `processGuardResult`
(src/contentScript.js:1858-1891): the configurable fail-open/fail-closed
policy is consulted only when the response is missing or not ok. -/
def processDecisionResponse (resp : Option DecisionResponse) : DecisionPath :=
  match resp with
  | none =>
    if CONFIG_FAIL_OPEN_ON_DECISION_ERROR then .failOpenSend else .failClosedToast
  | some r =>
    if r.ok = false then
      if CONFIG_FAIL_OPEN_ON_DECISION_ERROR then .failOpenSend else .failClosedToast
    else if r.action = "send" then .cachedSend
    else .appliedConvert

/-! ### Spec-side definitions for refinement claims -/

/-- Modelled from the spec: "a long uppercase run of 4 or more letters" —
four or more consecutive `[A-Z]` characters. -/
def specHasUpperRun4 (text : List Char) : Bool :=
  (List.range text.length).any (fun i =>
    ((text.drop i).take 4).length = 4 && ((text.drop i).take 4).all isUpperLatin)

/-- Modelled from the spec: "Korean imperative sentence endings" — two Hangul
syllables followed by `해라` or `하라`. -/
def specImperativeEnding (text : List Char) : Bool :=
  (List.range text.length).any (fun i =>
    match text.drop i with
    | a :: b :: c :: d :: _ =>
      isHangulSyllable a && isHangulSyllable b && (c == '해' || c == '하')
        && d == '라'
    | _ => false)

/-- The contextual-risk formula claimed by the spec for the enhanced scorer
(§4.4 step 4), written from the spec's words: +0.5 for ≥2 exclamation runs,
+0.5 for ≥2 question runs, +0.5 for mixed `?!`/`!?`, +0.3 per distinct
aggressive-vocabulary hit, +0.5 for ≥6 Latin letters at least half uppercase,
+1 for a long uppercase run, +1 for Korean imperative endings, +0.5 for
urgency-word hits (tenths of a point). -/
def specContextualRiskFull (text : List Char) : ℤ :=
  (if 2 ≤ countCharRuns '!' text then 5 else 0)
  + (if 2 ≤ countCharRuns '?' text then 5 else 0)
  + (if jsIncludes text "?!".data = true ∨ jsIncludes text "!?".data = true then 5 else 0)
  + 3 * (aggressivePatterns.countP (fun w => jsIncludes text w.data) : ℤ)
  + (if 6 ≤ text.countP isLatinLetter
        ∧ text.countP isLatinLetter ≤ 2 * text.countP isUpperLatin then 5 else 0)
  + (if specHasUpperRun4 text = true then 10 else 0)
  + (if specImperativeEnding text = true then 10 else 0)
  + (if urgencyWords.any (fun w => jsIncludes text w.data) = true then 5 else 0)

/-- The first five contributions of the spec formula (the ones the enhanced
scorer's contextual-risk function actually computes). -/
def specContextualRiskCore (text : List Char) : ℤ :=
  (if 2 ≤ countCharRuns '!' text then 5 else 0)
  + (if 2 ≤ countCharRuns '?' text then 5 else 0)
  + (if jsIncludes text "?!".data = true ∨ jsIncludes text "!?".data = true then 5 else 0)
  + 3 * (aggressivePatterns.countP (fun w => jsIncludes text w.data) : ℤ)
  + (if 6 ≤ text.countP isLatinLetter
        ∧ text.countP isLatinLetter ≤ 2 * text.countP isUpperLatin then 5 else 0)

/-! ## Theorems -/

/-- Helper: `Char.ofNat` of a valid code point round-trips through `Char.toNat`. -/
theorem char_toNat_ofNat (n : Nat) (h : n.isValidChar) : (Char.ofNat n).toNat = n := by
  simp [Char.ofNat, h, Char.toNat, Char.ofNatAux, UInt32.ofNat', UInt32.toNat]

/-! ### C2: idempotence of the normalizer -/

/-- Helper: characters outside A–Z and other than U+00C9 are fixed by the
fragment lowercase map. -/
theorem jsToLower_fixed (c : Char) (h1 : ¬(65 ≤ c.toNat ∧ c.toNat ≤ 90))
    (h2 : ¬c.toNat = 0xC9) : jsToLower c = c := by
  unfold jsToLower
  rw [if_neg h1, if_neg h2]

/-- Helper: the fragment lowercase map is idempotent. -/
theorem jsToLower_idem (c : Char) : jsToLower (jsToLower c) = jsToLower c := by
  by_cases h1 : 65 ≤ c.toNat ∧ c.toNat ≤ 90
  · have e1 : jsToLower c = Char.ofNat (c.toNat + 32) := by
      unfold jsToLower
      rw [if_pos h1]
    have ht : (Char.ofNat (c.toNat + 32)).toNat = c.toNat + 32 :=
      char_toNat_ofNat _ (Or.inl (by omega))
    rw [e1]
    exact jsToLower_fixed _ (by simp only [ht]; omega) (by simp only [ht]; omega)
  · by_cases h2 : c.toNat = 0xC9
    · have e1 : jsToLower c = Char.ofNat 0xE9 := by
        unfold jsToLower
        rw [if_neg h1, if_pos h2]
      have ht : (Char.ofNat 0xE9).toNat = 0xE9 :=
        char_toNat_ofNat _ (Or.inl (by norm_num))
      rw [e1]
      exact jsToLower_fixed _ (by simp only [ht]; omega) (by simp only [ht]; omega)
    · have e1 := jsToLower_fixed c h1 h2
      rw [e1]
      exact e1

/-- Helper: every character emitted by `nfdChar` for a lowered, non-stripped
character is itself lowered and non-stripped, and decomposes trivially unless
it is a combining mark. -/
theorem nfdChar_good (c d : Char)
    (h1 : jsToLower c = c) (h2 : isZeroWidthChar c = false)
    (h3 : isCombiningMark c = false) (h4 : isSeparatorChar c = false)
    (hd : d ∈ nfdChar c) :
    jsToLower d = d ∧ isZeroWidthChar d = false ∧ isSeparatorChar d = false ∧
      (isCombiningMark d = false → nfdChar d = [d]) := by
  unfold nfdChar at hd
  by_cases he : c.toNat = 0xE9
  · rw [if_pos he] at hd
    simp only [List.mem_cons, List.not_mem_nil, or_false] at hd
    rcases hd with rfl | rfl
    · exact ⟨by decide, by decide, by decide, fun _ => by decide⟩
    · exact ⟨by decide, by decide, by decide, fun _ => by decide⟩
  · by_cases hc9 : c.toNat = 0xC9
    · exfalso
      have e1 : jsToLower c = Char.ofNat 0xE9 := by
        unfold jsToLower
        rw [if_neg (by omega), if_pos hc9]
      have e2 : c.toNat = 0xE9 := by
        rw [h1] at e1
        rw [e1]
        exact char_toNat_ofNat _ (Or.inl (by norm_num))
      omega
    · rw [if_neg he, if_neg hc9] at hd
      simp only [List.mem_cons, List.not_mem_nil, or_false] at hd
      subst hd
      refine ⟨h1, h2, h4, fun _ => ?_⟩
      unfold nfdChar
      rw [if_neg he, if_neg hc9]

/-- Helper: each character of `nfdString l` comes from `nfdChar` of some
character of `l`. -/
theorem exists_of_mem_nfdString {d : Char} {l : List Char}
    (h : d ∈ nfdString l) : ∃ c ∈ l, d ∈ nfdChar c := by
  induction l with
  | nil => simp [nfdString] at h
  | cons a t ih =>
    have e : nfdString (a :: t) = nfdChar a ++ nfdString t := rfl
    rw [e] at h
    rcases List.mem_append.mp h with h1 | h2
    · exact ⟨a, List.mem_cons_self a t, h1⟩
    · obtain ⟨c, hc, hdc⟩ := ih h2
      exact ⟨c, List.mem_cons_of_mem a hc, hdc⟩

/-- Helper: `nfdString` is the identity on lists of trivially-decomposing
characters. -/
theorem nfdString_eq_self {l : List Char} (h : ∀ c ∈ l, nfdChar c = [c]) :
    nfdString l = l := by
  induction l with
  | nil => rfl
  | cons a t ih =>
    have e : nfdString (a :: t) = nfdChar a ++ nfdString t := rfl
    rw [e, h a (List.mem_cons_self a t), ih (fun c hc => h c (List.mem_cons_of_mem a hc))]
    rfl

/-- Helper: `map` of a pointwise-fixing function is the identity. -/
theorem map_eq_self {l : List Char} {f : Char → Char} (h : ∀ c ∈ l, f c = c) :
    l.map f = l := by
  induction l with
  | nil => rfl
  | cons a t ih =>
    simp only [List.map_cons, h a (List.mem_cons_self a t)]
    rw [ih (fun c hc => h c (List.mem_cons_of_mem a hc))]

/-- Helper: every character surviving `preNfd` is lowered and none of the
stripped classes. -/
theorem preNfd_good (l : List Char) :
    ∀ c ∈ preNfd l, jsToLower c = c ∧ isZeroWidthChar c = false ∧
      isCombiningMark c = false ∧ isSeparatorChar c = false := by
  intro c hc
  unfold preNfd at hc
  have h4 := (List.mem_filter.mp hc).2
  have hc2 := (List.mem_filter.mp hc).1
  have h3 := (List.mem_filter.mp hc2).2
  have hc3 := (List.mem_filter.mp hc2).1
  have h2 := (List.mem_filter.mp hc3).2
  have hc4 := (List.mem_filter.mp hc3).1
  obtain ⟨x, _, rfl⟩ := List.mem_map.mp hc4
  refine ⟨jsToLower_idem x, ?_, ?_, ?_⟩
  · simpa using h2
  · simpa using h3
  · simpa using h4

/-- C2 (amended): the normalizer is not idempotent; a second application is
exactly a second stripping of combining marks, because the source strips
combining marks before NFD and NFD can reintroduce them.  Consequently
`normalize` is idempotent precisely on the inputs whose normalization
contains no combining mark. -/
theorem c2_normalize_double_strips_marks (l : List Char) :
    normalizeKoreanText (normalizeKoreanText l)
      = (normalizeKoreanText l).filter (fun c => !isCombiningMark c) := by
  show normalizeKoreanText (nfdString (preNfd l))
      = (nfdString (preNfd l)).filter (fun c => !isCombiningMark c)
  have hout : ∀ d ∈ nfdString (preNfd l),
      jsToLower d = d ∧ isZeroWidthChar d = false ∧ isSeparatorChar d = false ∧
        (isCombiningMark d = false → nfdChar d = [d]) := by
    intro d hd
    obtain ⟨c, hc, hdc⟩ := exists_of_mem_nfdString hd
    obtain ⟨g1, g2, g3, g4⟩ := preNfd_good l c hc
    exact nfdChar_good c d g1 g2 g3 g4 hdc
  set y := nfdString (preNfd l) with hy
  show nfdString (preNfd y) = y.filter (fun c => !isCombiningMark c)
  unfold preNfd
  rw [map_eq_self (fun c hc => (hout c hc).1)]
  have hzw : y.filter (fun c => !isZeroWidthChar c) = y :=
    List.filter_eq_self.mpr (fun c hc => by simp [(hout c hc).2.1])
  rw [hzw]
  have hsep : (y.filter (fun c => !isCombiningMark c)).filter
      (fun c => !isSeparatorChar c) = y.filter (fun c => !isCombiningMark c) :=
    List.filter_eq_self.mpr
      (fun c hc => by simp [(hout c (List.mem_of_mem_filter hc)).2.2.1])
  rw [hsep]
  refine nfdString_eq_self (fun c hc => ?_)
  have hcm : (fun c => !isCombiningMark c) c = true := (List.mem_filter.mp hc).2
  exact (hout c (List.mem_of_mem_filter hc)).2.2.2 (by simpa using hcm)

/-- C2 counterexample: at the input "é" (U+00E9) the normalizer is not
idempotent — `normalize("é")` is `e` followed by U+0301, while a second
application strips the combining mark and yields `e`. -/
theorem c2_normalize_not_idempotent :
    normalizeKoreanText (normalizeKoreanText [Char.ofNat 0xE9])
      ≠ normalizeKoreanText [Char.ofNat 0xE9] := by
  decide

/-! ### C4: the enhanced scorer's contextual-risk contributions -/

/-- Helper: the aggressive-word fold adds exactly 0.3 per distinct list word
contained in the text. -/
theorem ctxAggStep_foldl_fst (text : List Char) (ws : List String) :
    ∀ acc : ℤ × List String,
      (ws.foldl (ctxAggStep text) acc).1
        = acc.1 + 3 * (ws.countP (fun w => jsIncludes text w.data) : ℤ) := by
  induction ws with
  | nil => intro acc; simp
  | cons w rest ih =>
    intro acc
    simp only [List.foldl_cons, List.countP_cons, ctxAggStep]
    by_cases h : jsIncludes text w.data = true
    · rw [if_pos h, ih, if_pos h]
      omega
    · rw [if_neg h, ih, if_neg h]
      omega

/-- Helper: the contextual-risk score equals the five-term closed formula. -/
theorem contextualRisk_score_eq (text : List Char) :
    (calculateContextualRisk text).score = specContextualRiskCore text := by
  unfold calculateContextualRisk specContextualRiskCore
  dsimp only
  split_ifs <;> simp only [ctxAggStep_foldl_fst] <;> omega

/-- Helper: the contextual-risk score is non-negative. -/
theorem contextualRisk_score_nonneg (text : List Char) :
    0 ≤ (calculateContextualRisk text).score := by
  rw [contextualRisk_score_eq]
  unfold specContextualRiskCore
  have : (0 : ℤ) ≤ 3 * (aggressivePatterns.countP (fun w => jsIncludes text w.data) : ℤ) := by
    positivity
  split_ifs <;> omega

/-- C4 counterexample: on the input "ABCD" the spec's eight-term contextual
formula yields 1 point (a long uppercase run), while the enhanced scorer's
`calculateContextualRisk` yields 0 — the uppercase-run, imperative-ending and
urgency contributions are absent from it. -/
theorem c4_contextual_counterexample :
    (calculateContextualRisk "ABCD".data).score
      ≠ specContextualRiskFull "ABCD".data := by
  decide

/-- C4 (amended): the contextual-risk component of the enhanced scorer is a
pure function of the raw text computing exactly these additive
contributions: +0.5 for two or more exclamation runs, +0.5 for two or more
question runs, +0.5 for `?!` or `!?`, +0.3 per distinct aggressive-vocabulary
hit, and +0.5 for six or more Latin letters at least half uppercase.  The
uppercase-run, Korean-imperative and urgency contributions claimed for it
exist only in the content script's prefilter. -/
theorem c4_contextual_amended (text : List Char) :
    (calculateContextualRisk text).score = specContextualRiskCore text :=
  contextualRisk_score_eq text

/-! ### C1 and C3: whitelist precedence, score range, monotone clamping -/

/-- Helper: the pattern-scan fold adds ten times the summed weights of the
matched patterns to the score component. -/
theorem advStep_foldl_fst (normalized skeleton : List Char)
    (ps : List CompiledPattern) :
    ∀ acc, (ps.foldl (advStep normalized skeleton) acc).1
      = acc.1 + 10 * ((ps.filter (fun p =>
            p.pattern normalized || p.skeletonPattern skeleton)).map
          (fun p => (p.weight : ℤ))).sum := by
  induction ps with
  | nil => intro acc; simp
  | cons p rest ih =>
    intro acc
    simp only [List.foldl_cons, List.filter_cons, advStep]
    by_cases h : (p.pattern normalized || p.skeletonPattern skeleton) = true
    · rw [if_pos h, if_pos h, List.map_cons, List.sum_cons, ih]
      push_cast
      ring
    · rw [if_neg h, if_neg h, ih]

/-- Helper: the enhanced score is clamped to `[0, 10]` points. -/
theorem advancedRiskScore_range (patterns : List CompiledPattern)
    (text : List Char) :
    0 ≤ (calculateAdvancedRiskScore patterns text).score
      ∧ (calculateAdvancedRiskScore patterns text).score ≤ 100 := by
  unfold calculateAdvancedRiskScore
  dsimp only
  by_cases he : (normalizeKoreanText text).isEmpty = true
  · rw [if_pos he]
    exact ⟨le_refl 0, by norm_num⟩
  · rw [if_neg he]
    dsimp only
    have h1 : 0 ≤ (patterns.foldl
        (advStep (normalizeKoreanText text)
          (extractKoreanSkeleton (normalizeKoreanText text))) (0, [], ⟨0, 0, 0, 0⟩)).1 := by
      rw [advStep_foldl_fst]
      have hsum : 0 ≤ ((patterns.filter (fun p =>
          p.pattern (normalizeKoreanText text)
            || p.skeletonPattern (extractKoreanSkeleton (normalizeKoreanText text)))).map
          (fun p => (p.weight : ℤ))).sum := by
        refine List.sum_nonneg ?_
        intro x hx
        obtain ⟨p, _, rfl⟩ := List.mem_map.mp hx
        positivity
      omega
    have h2 := contextualRisk_score_nonneg text
    exact ⟨le_min (by omega) (by norm_num), min_le_right _ _⟩

/-- Helper: `getBlacklistMatches` distributes over list append. -/
theorem getBlacklistMatches_append (re : String → String → Bool)
    (b1 b2 : List ListItem) (text loc : String) :
    getBlacklistMatches re (b1 ++ b2) text loc
      = getBlacklistMatches re b1 text loc ++ getBlacklistMatches re b2 text loc := by
  unfold getBlacklistMatches
  exact List.filterMap_append b1 b2 _

/-- Helper: every blacklist match carries the weight of some blacklist item. -/
theorem blacklistMatch_weight (re : String → String → Bool)
    (bl : List ListItem) (text loc : String) :
    ∀ m ∈ getBlacklistMatches re bl text loc, ∃ item ∈ bl, m.weight = item.weight := by
  intro m hm
  unfold getBlacklistMatches at hm
  obtain ⟨item, hitem, hf⟩ := List.mem_filterMap.mp hm
  refine ⟨item, hitem, ?_⟩
  by_cases h1 : item.locale ≠ "all" ∧ item.locale ≠ loc
  · rw [if_pos h1] at hf
    exact absurd hf (by simp)
  · rw [if_neg h1] at hf
    dsimp only at hf
    rw [Option.ite_none_right_eq_some, Option.some.injEq] at hf
    rw [← hf.2]

/-- Helper: a validated blacklist item's weight lies in the weight enum. -/
theorem validateListItem_weight (b : ListItem)
    (h : validateListItem b true = true) : 1 ≤ b.weight ∧ b.weight ≤ 4 := by
  unfold validateListItem at h
  simp only [Bool.and_eq_true] at h
  have hw := h.2
  simp at hw
  rcases hw with h1 | h1 | h1 | h1 <;> omega

/-- Helper: JS `reduce((t, m) => t + m.weight, 0)` is the list sum. -/
theorem foldl_add_eq_sum (l : List ℤ) : ∀ init : ℤ, l.foldl (· + ·) init = init + l.sum := by
  induction l with
  | nil => intro init; simp
  | cons a t ih =>
    intro init
    simp only [List.foldl_cons, List.sum_cons, ih]
    ring

/-- C1: a text matching some whitelist item under its match-type and locale
rule makes the enhanced scorer return score 0 and `whitelisted: true` with no
lexicon match and no blacklist contribution, irrespective of the compiled
patterns and the blacklist. -/
theorem c1_whitelist_forces_zero (re : String → String → Bool)
    (patterns : List CompiledPattern) (wl bl : List ListItem) (text : String)
    (h : isTextWhitelisted re wl text "all" = true) :
    (calculateAdvancedRiskScoreWithWhitelist re patterns wl bl text).score = 0
  ∧ (calculateAdvancedRiskScoreWithWhitelist re patterns wl bl text).whitelisted = true
  ∧ (calculateAdvancedRiskScoreWithWhitelist re patterns wl bl text).matchList = []
  ∧ (calculateAdvancedRiskScoreWithWhitelist re patterns wl bl text).blacklistMatches = []
  ∧ (calculateAdvancedRiskScoreWithWhitelist re patterns wl bl text).blacklistScore = 0 := by
  unfold calculateAdvancedRiskScoreWithWhitelist
  rw [if_pos h]
  exact ⟨rfl, rfl, rfl, rfl, rfl⟩

/-- C1 witness: the one-item whitelist `[{text: "hello", match: exact,
locale: all}]` whitelists the text "hello", and the enhanced scorer returns
score 0 and `whitelisted: true` on it. -/
theorem c1_whitelist_forces_zero_witness :
    isTextWhitelisted (fun _ _ => false)
        [{ text := "hello", matchType := "exact", locale := "all", weight := 0 }]
        "hello" "all" = true
  ∧ ((calculateAdvancedRiskScoreWithWhitelist (fun _ _ => false) []
        [{ text := "hello", matchType := "exact", locale := "all", weight := 0 }]
        [] "hello").score = 0
      ∧ (calculateAdvancedRiskScoreWithWhitelist (fun _ _ => false) []
          [{ text := "hello", matchType := "exact", locale := "all", weight := 0 }]
          [] "hello").whitelisted = true
      ∧ (calculateAdvancedRiskScoreWithWhitelist (fun _ _ => false) []
          [{ text := "hello", matchType := "exact", locale := "all", weight := 0 }]
          [] "hello").matchList = []
      ∧ (calculateAdvancedRiskScoreWithWhitelist (fun _ _ => false) []
          [{ text := "hello", matchType := "exact", locale := "all", weight := 0 }]
          [] "hello").blacklistMatches = []
      ∧ (calculateAdvancedRiskScoreWithWhitelist (fun _ _ => false) []
          [{ text := "hello", matchType := "exact", locale := "all", weight := 0 }]
          [] "hello").blacklistScore = 0) :=
  ⟨by decide, c1_whitelist_forces_zero (fun _ _ => false) []
    [{ text := "hello", matchType := "exact", locale := "all", weight := 0 }]
    [] "hello" (by decide)⟩

/-- Helper: the final score of the non-whitelisted path in closed form. -/
theorem withWhitelist_score (re : String → String → Bool)
    (patterns : List CompiledPattern) (wl bl : List ListItem) (text : String)
    (hw : ¬isTextWhitelisted re wl text "all" = true) :
    (calculateAdvancedRiskScoreWithWhitelist re patterns wl bl text).score
      = if 0 < (getBlacklistMatches re bl text "all").length then
          min ((calculateAdvancedRiskScore patterns text.data).score
            + 10 * ((getBlacklistMatches re bl text "all").map (fun m => m.weight)).sum) 100
        else (calculateAdvancedRiskScore patterns text.data).score := by
  unfold calculateAdvancedRiskScoreWithWhitelist
  rw [if_neg hw]
  dsimp only
  by_cases h : 0 < (getBlacklistMatches re bl text "all").length
  · rw [if_pos h, if_pos h]
    show min _ 100 = _
    rw [foldl_add_eq_sum]
    ring_nf
  · rw [if_neg h, if_neg h]

/-- C3: under validated blacklist items the final enhanced score lies in
`[0, 10]` points, and appending a further validated blacklist item never
decreases it (clamped at 10 points). -/
theorem c3_score_range_and_monotone (re : String → String → Bool)
    (patterns : List CompiledPattern) (wl bl : List ListItem) (extra : ListItem)
    (text : String)
    (hbl : ∀ b ∈ bl, validateListItem b true = true)
    (hx : validateListItem extra true = true) :
    0 ≤ (calculateAdvancedRiskScoreWithWhitelist re patterns wl bl text).score
  ∧ (calculateAdvancedRiskScoreWithWhitelist re patterns wl bl text).score ≤ 100
  ∧ (calculateAdvancedRiskScoreWithWhitelist re patterns wl bl text).score
      ≤ (calculateAdvancedRiskScoreWithWhitelist re patterns wl (bl ++ [extra]) text).score := by
  by_cases hw : isTextWhitelisted re wl text "all" = true
  · unfold calculateAdvancedRiskScoreWithWhitelist
    simp only [if_pos hw]
    exact ⟨le_refl 0, by norm_num, le_refl 0⟩
  · obtain ⟨hb0, hb100⟩ := advancedRiskScore_range patterns text.data
    have hMw : ∀ m ∈ getBlacklistMatches re bl text "all", 1 ≤ m.weight := by
      intro m hm
      obtain ⟨item, hi, he⟩ := blacklistMatch_weight re bl text "all" m hm
      have := validateListItem_weight item (hbl item hi)
      omega
    have hEw : ∀ m ∈ getBlacklistMatches re [extra] text "all", 1 ≤ m.weight := by
      intro m hm
      obtain ⟨item, hi, he⟩ := blacklistMatch_weight re [extra] text "all" m hm
      simp only [List.mem_cons, List.not_mem_nil, or_false] at hi
      rw [hi] at he
      have := validateListItem_weight extra hx
      omega
    have hSM : 0 ≤ ((getBlacklistMatches re bl text "all").map (fun m => m.weight)).sum := by
      refine List.sum_nonneg ?_
      intro x hx2
      obtain ⟨m, hm, rfl⟩ := List.mem_map.mp hx2
      have := hMw m hm
      omega
    have hSE : 0 ≤ ((getBlacklistMatches re [extra] text "all").map (fun m => m.weight)).sum := by
      refine List.sum_nonneg ?_
      intro x hx2
      obtain ⟨m, hm, rfl⟩ := List.mem_map.mp hx2
      have := hEw m hm
      omega
    have e1 := withWhitelist_score re patterns wl bl text hw
    have e2 := withWhitelist_score re patterns wl (bl ++ [extra]) text hw
    rw [getBlacklistMatches_append re bl [extra] text "all", List.map_append,
      List.sum_append, List.length_append] at e2
    rw [e1, e2]
    rw [Int.min_def, Int.min_def]
    split_ifs <;> omega

/-- C3 witness: with an empty whitelist, the single validated blacklist item
`{text: "x", match: contains, locale: all, weight: 2}` appended to an empty
blacklist, and the text "x", the range and monotonicity bounds hold. -/
theorem c3_score_range_and_monotone_witness :
    (∀ b ∈ ([] : List ListItem), validateListItem b true = true)
  ∧ validateListItem { text := "x", matchType := "contains", locale := "all", weight := 2 } true = true
  ∧ (0 ≤ (calculateAdvancedRiskScoreWithWhitelist (fun _ _ => false) [] [] [] "x").score
      ∧ (calculateAdvancedRiskScoreWithWhitelist (fun _ _ => false) [] [] [] "x").score ≤ 100
      ∧ (calculateAdvancedRiskScoreWithWhitelist (fun _ _ => false) [] [] [] "x").score
          ≤ (calculateAdvancedRiskScoreWithWhitelist (fun _ _ => false) [] []
              ([] ++ [{ text := "x", matchType := "contains", locale := "all", weight := 2 }]) "x").score) :=
  ⟨by simp, by decide,
   c3_score_range_and_monotone (fun _ _ => false) [] [] []
     { text := "x", matchType := "contains", locale := "all", weight := 2 } "x"
     (by simp) (by decide)⟩

/-! ### C5: the two category-weight tables -/

/-- Helper: the full inner profanity loop adds the weight once per matched
word. -/
theorem profanityInnerFull_fst (text : List Char) (weight : ℤ) (category : String)
    (words : List String) :
    ∀ acc, (profanityInnerFull text weight category words acc).1
      = acc.1 + weight * (words.countP (fun w => jsIncludes text w.data) : ℤ) := by
  induction words with
  | nil => intro acc; simp [profanityInnerFull]
  | cons w rest ih =>
    intro acc
    unfold profanityInnerFull at ih ⊢
    simp only [List.foldl_cons, List.countP_cons]
    by_cases h : jsIncludes text w.data = true
    · rw [if_pos h, ih, if_pos h]
      push_cast
      ring
    · rw [if_neg h, ih, if_neg h]
      push_cast
      ring

/-- Helper: the full outer profanity loop totals the per-category
contributions. -/
theorem profanityOuterFull_fst (text : List Char) (checks : List CategoryCheck) :
    ∀ acc, (profanityOuterFull text checks acc).1
      = acc.1 + (checks.map (fun ch =>
          ch.weight * (ch.words.countP (fun w => jsIncludes text w.data) : ℤ))).sum := by
  induction checks with
  | nil => intro acc; simp [profanityOuterFull]
  | cons ch rest ih =>
    intro acc
    unfold profanityOuterFull at ih ⊢
    simp only [List.foldl_cons, List.map_cons, List.sum_cons]
    rw [ih, profanityInnerFull_fst]
    ring

/-- C5: the prefilter's category table is `strong: 5, adult: 4, slur: 4,
weak: 2` and its full profanity subtotal adds the table weight once per
matched entry; the enhanced scorer's table (`getCategoryWeight`) is
`strong: 4, adult: 2, slur: 4, weak: 1`, every compiled pattern carries the
table weight of its category, and the enhanced pattern score is the sum of
the matched patterns' table weights. -/
theorem c5_category_weight_tables :
    (getCategoryWeight "strong" = 4 ∧ getCategoryWeight "adult" = 2
      ∧ getCategoryWeight "slur" = 4 ∧ getCategoryWeight "weak" = 1)
  ∧ (∀ cats : ProfanityCategories,
      (categoryChecks cats).map (fun ch => (ch.category, ch.weight))
        = [("strong", 5), ("adult", 4), ("slur", 4), ("weak", 2)])
  ∧ (∀ (re : List Char → List Char → Bool) (item : LexiconItem),
      (generateCategorizedPattern re item).weight = getCategoryWeight item.category)
  ∧ (∀ (patterns : List CompiledPattern) (text : List Char),
      (calculateAdvancedRiskScore patterns text).patternScore
        = if (normalizeKoreanText text).isEmpty then 0
          else 10 * ((patterns.filter (fun p =>
              p.pattern (normalizeKoreanText text)
                || p.skeletonPattern (extractKoreanSkeleton (normalizeKoreanText text)))).map
            (fun p => (p.weight : ℤ))).sum)
  ∧ (∀ (cats : ProfanityCategories) (text : List Char),
      (profanityOuterFull text (categoryChecks cats) (0, [])).1
        = ((categoryChecks cats).map (fun ch =>
            ch.weight * (ch.words.countP (fun w => jsIncludes text w.data) : ℤ))).sum) := by
  refine ⟨⟨rfl, rfl, rfl, rfl⟩, fun cats => rfl, fun re item => rfl, ?_, ?_⟩
  · intro patterns text
    unfold calculateAdvancedRiskScore
    dsimp only
    by_cases he : (normalizeKoreanText text).isEmpty = true
    · rw [if_pos he, if_pos he]
    · rw [if_neg he, if_neg he]
      dsimp only
      rw [advStep_foldl_fst]
      ring
  · intro cats text
    rw [profanityOuterFull_fst]
    ring

/-! ### C8: the prefilter's early exit does not change the score -/

/-- Helper: the full inner loop never decreases the subtotal when the weight
is non-negative. -/
theorem profanityInnerFull_fst_ge (text : List Char) (weight : ℤ)
    (category : String) (words : List String) (acc : ℤ × List ProfMatch)
    (hw : 0 ≤ weight) :
    acc.1 ≤ (profanityInnerFull text weight category words acc).1 := by
  rw [profanityInnerFull_fst]
  have := mul_nonneg hw
    (by positivity : (0:ℤ) ≤ (words.countP (fun w => jsIncludes text w.data) : ℤ))
  omega

/-- Helper: the full outer loop never decreases the subtotal when every
weight is non-negative. -/
theorem profanityOuterFull_fst_ge (text : List Char) (checks : List CategoryCheck)
    (acc : ℤ × List ProfMatch) (hw : ∀ ch ∈ checks, 0 ≤ ch.weight) :
    acc.1 ≤ (profanityOuterFull text checks acc).1 := by
  rw [profanityOuterFull_fst]
  have : 0 ≤ (checks.map (fun ch =>
      ch.weight * (ch.words.countP (fun w => jsIncludes text w.data) : ℤ))).sum := by
    refine List.sum_nonneg ?_
    intro x hx
    obtain ⟨ch, hch, rfl⟩ := List.mem_map.mp hx
    exact mul_nonneg (hw ch hch) (by positivity)
  omega

/-- Helper: unfolding the inner loop on a matched word. -/
theorem profanityInner_cons_pos (text : List Char) (weight : ℤ) (category : String)
    (w : String) (rest : List String) (acc : ℤ × List ProfMatch)
    (h : jsIncludes text w.data = true) :
    profanityInner text weight category (w :: rest) acc
      = if 6 ≤ acc.1 + weight
        then (acc.1 + weight, acc.2 ++ [{ word := w, category := category }])
        else profanityInner text weight category rest
          (acc.1 + weight, acc.2 ++ [{ word := w, category := category }]) := by
  simp only [profanityInner, if_pos h]

/-- Helper: unfolding the inner loop on an unmatched word. -/
theorem profanityInner_cons_neg (text : List Char) (weight : ℤ) (category : String)
    (w : String) (rest : List String) (acc : ℤ × List ProfMatch)
    (h : ¬jsIncludes text w.data = true) :
    profanityInner text weight category (w :: rest) acc
      = profanityInner text weight category rest acc := by
  simp only [profanityInner, if_neg h]

/-- Helper: unfolding the full inner loop on a matched word. -/
theorem profanityInnerFull_cons_pos (text : List Char) (weight : ℤ)
    (category : String) (w : String) (rest : List String) (acc : ℤ × List ProfMatch)
    (h : jsIncludes text w.data = true) :
    profanityInnerFull text weight category (w :: rest) acc
      = profanityInnerFull text weight category rest
          (acc.1 + weight, acc.2 ++ [{ word := w, category := category }]) := by
  unfold profanityInnerFull
  simp only [List.foldl_cons, if_pos h]

/-- Helper: unfolding the full inner loop on an unmatched word. -/
theorem profanityInnerFull_cons_neg (text : List Char) (weight : ℤ)
    (category : String) (w : String) (rest : List String) (acc : ℤ × List ProfMatch)
    (h : ¬jsIncludes text w.data = true) :
    profanityInnerFull text weight category (w :: rest) acc
      = profanityInnerFull text weight category rest acc := by
  unfold profanityInnerFull
  simp only [List.foldl_cons, if_neg h]

/-- Helper: the inner loop with the early exit either equals the full loop,
or has already reached 6 points and is below the full loop's subtotal. -/
theorem profanityInner_rel (text : List Char) (weight : ℤ) (category : String)
    (hw : 0 ≤ weight) (words : List String) :
    ∀ acc, profanityInner text weight category words acc
        = profanityInnerFull text weight category words acc
      ∨ (6 ≤ (profanityInner text weight category words acc).1
          ∧ (profanityInner text weight category words acc).1
            ≤ (profanityInnerFull text weight category words acc).1) := by
  induction words with
  | nil => intro acc; left; rfl
  | cons w rest ih =>
    intro acc
    by_cases h : jsIncludes text w.data = true
    · rw [profanityInner_cons_pos text weight category w rest acc h,
        profanityInnerFull_cons_pos text weight category w rest acc h]
      by_cases h6 : 6 ≤ acc.1 + weight
      · rw [if_pos h6]
        right
        exact ⟨h6, profanityInnerFull_fst_ge text weight category rest _ hw⟩
      · rw [if_neg h6]
        exact ih _
    · rw [profanityInner_cons_neg text weight category w rest acc h,
        profanityInnerFull_cons_neg text weight category w rest acc h]
      exact ih acc

/-- Helper: the outer loop with the early exits either equals the full loop,
or has reached 6 points and is below the full loop's subtotal. -/
theorem profanityOuter_rel (text : List Char) :
    ∀ checks : List CategoryCheck, (∀ ch ∈ checks, 0 ≤ ch.weight) →
      ∀ acc, profanityOuter text checks acc = profanityOuterFull text checks acc
        ∨ (6 ≤ (profanityOuter text checks acc).1
            ∧ (profanityOuter text checks acc).1
              ≤ (profanityOuterFull text checks acc).1) := by
  intro checks
  induction checks with
  | nil => intro _ acc; left; rfl
  | cons ch rest ih =>
    intro hw acc
    have hwch : 0 ≤ ch.weight := hw ch (List.mem_cons_self ch rest)
    have hwrest : ∀ c ∈ rest, 0 ≤ c.weight :=
      fun c hc => hw c (List.mem_cons_of_mem ch hc)
    have eo : profanityOuter text (ch :: rest) acc
        = if 6 ≤ (profanityInner text ch.weight ch.category ch.words acc).1
          then profanityInner text ch.weight ch.category ch.words acc
          else profanityOuter text rest
            (profanityInner text ch.weight ch.category ch.words acc) := by
      simp only [profanityOuter]
    have ef : profanityOuterFull text (ch :: rest) acc
        = profanityOuterFull text rest
            (profanityInnerFull text ch.weight ch.category ch.words acc) := by
      unfold profanityOuterFull
      simp only [List.foldl_cons]
    rw [eo, ef]
    rcases profanityInner_rel text ch.weight ch.category hwch ch.words acc with
      heq | ⟨h6, hle⟩
    · rw [heq]
      by_cases h6 : 6 ≤ (profanityInnerFull text ch.weight ch.category ch.words acc).1
      · rw [if_pos h6]
        right
        exact ⟨h6, profanityOuterFull_fst_ge text rest _ hwrest⟩
      · rw [if_neg h6]
        exact ih hwrest _
    · rw [if_pos h6]
      right
      refine ⟨h6, le_trans hle ?_⟩
      exact profanityOuterFull_fst_ge text rest _ hwrest

/-- Helper: two profanity subtotals that agree, or have both cleared the
6-point cap, produce the same final prefilter score. -/
theorem basicRiskFromProfanity_score_congr (text : List Char)
    (b f : ℤ × List ProfMatch) (h : b = f ∨ (6 ≤ b.1 ∧ b.1 ≤ f.1)) :
    (basicRiskFromProfanity text b).score = (basicRiskFromProfanity text f).score := by
  rcases h with rfl | ⟨h6, hle⟩
  · rfl
  · unfold basicRiskFromProfanity
    dsimp only
    have e : (if 0 < b.1 then 10 * min 6 b.1 else 0)
        = (if 0 < f.1 then 10 * min 6 f.1 else 0) := by
      rw [if_pos (by omega), if_pos (by omega),
        min_eq_left (by omega : (6:ℤ) ≤ b.1), min_eq_left (by omega : (6:ℤ) ≤ f.1)]
    rw [e]

/-- C8: the prefilter's early exit in the profanity scan does not change the
final score — for every lexicon state and input text, the score with the
short-circuit equals the score of the same algorithm without it. -/
theorem c8_prefilter_short_circuit_equiv (cats : ProfanityCategories)
    (text : List Char) :
    (calculateBasicRiskScore cats text).score
      = (calculateBasicRiskScoreNoShortCircuit cats text).score := by
  unfold calculateBasicRiskScore calculateBasicRiskScoreNoShortCircuit
  by_cases hwl : (LOCAL_WHITELIST.any fun w => jsIncludes text w.data) = true
  · rw [if_pos hwl, if_pos hwl]
  · rw [if_neg hwl, if_neg hwl]
    refine basicRiskFromProfanity_score_congr text _ _ ?_
    refine profanityOuter_rel text (categoryChecks cats) ?_ (0, [])
    intro ch hch
    simp only [categoryChecks, List.mem_cons, List.not_mem_nil, or_false] at hch
    rcases hch with rfl | rfl | rfl | rfl <;> norm_num

/-! ### C6: cache TTL boundary -/

/-- C6: an entry cached at time `T` (global path, no element cache) is a hit
when the same text is looked up at `T + 89s`, and is a miss — with the
expired entry deleted — at `T + 91s`; the boundary is the 90-second TTL. -/
theorem c6_cache_ttl_boundary (g : CacheMap) (t : ℤ) (text mode : String)
    (conv : Option String) :
    (getCachedResult (t + 89000) text
        (setCachedResult t text mode conv g none).1
        (setCachedResult t text mode conv g none).2).result
      = some { timestamp := t, mode := mode, converted := conv }
  ∧ (getCachedResult (t + 91000) text
        (setCachedResult t text mode conv g none).1
        (setCachedResult t text mode conv g none).2).result = none
  ∧ (getCachedResult (t + 91000) text
        (setCachedResult t text mode conv g none).1
        (setCachedResult t text mode conv g none).2).global
      ⟨normalizeText text.data⟩ = none := by
  have h89 : ¬((90000 : ℤ) < t + 89000 - t) := by omega
  have h91 : (90000 : ℤ) < t + 91000 - t := by omega
  refine ⟨?_, ?_, ?_⟩ <;>
    simp [setCachedResult, getCachedResult, globalCacheLookup, mapSet,
      CONFIG_CACHE_TTL_MS, h89, h91]

/-! ### C7: warning-acknowledged cache entries are single-use -/

/-- Helper: `mapSet` takes effect at its own key. -/
theorem mapSet_self (m : CacheMap) (k : String) (v : Option CacheItem) :
    mapSet m k v k = v := by
  unfold mapSet
  rw [if_pos rfl]

/-- Helper: the cache lookup misses when neither cache holds the key. -/
theorem getCachedResult_none (now : ℤ) (text : String) (g : CacheMap)
    (e : Option CacheMap)
    (hg : g ⟨normalizeText text.data⟩ = none)
    (he : ∀ ec, e = some ec → ec ⟨normalizeText text.data⟩ = none) :
    (getCachedResult now text g e).result = none := by
  unfold getCachedResult globalCacheLookup
  cases e with
  | none =>
    dsimp only
    rw [hg]
  | some ec =>
    dsimp only
    rw [he ec rfl, hg]

/-- Helper: the guard cache step falls through to scoring when neither cache
holds the key. -/
theorem guardCacheStep_miss (now : ℤ) (text : String) (g : CacheMap)
    (e : Option CacheMap)
    (hg : g ⟨normalizeText text.data⟩ = none)
    (he : ∀ ec, e = some ec → ec ⟨normalizeText text.data⟩ = none) :
    (guardCacheStep now text g e).1 = .miss := by
  unfold guardCacheStep
  dsimp only
  rw [getCachedResult_none now text g e hg he]

/-- C7: when the cache-consultation step of `onKeyDownGuard` hits an entry in
mode `warning_acknowledged`, the outcome is the one-time pass and, in the
same step, the entry is removed from both caches — so an immediate re-submit
of the identical text misses the cache and is re-scored from scratch. -/
theorem c7_warning_ack_single_use (now now2 : ℤ) (text : String)
    (g : CacheMap) (e : Option CacheMap) (item : CacheItem)
    (h1 : (getCachedResult now text g e).result = some item)
    (h2 : item.mode = "warning_acknowledged") :
    (guardCacheStep now text g e).1 = .ackConsumed
  ∧ (guardCacheStep now2 text
      (guardCacheStep now text g e).2.1
      (guardCacheStep now text g e).2.2).1 = .miss := by
  have hsend : ¬item.mode = "send" := by rw [h2]; decide
  have estep : guardCacheStep now text g e
      = (.ackConsumed,
         mapSet (getCachedResult now text g e).global ⟨normalizeText text.data⟩ none,
         (getCachedResult now text g e).element.map
           (fun ec => mapSet ec ⟨normalizeText text.data⟩ none)) := by
    unfold guardCacheStep
    dsimp only
    rw [h1]
    dsimp only
    rw [if_neg hsend, if_pos h2]
  refine ⟨by rw [estep], ?_⟩
  rw [estep]
  dsimp only
  apply guardCacheStep_miss
  · exact mapSet_self _ _ _
  · intro ec hec
    cases hel : (getCachedResult now text g e).element with
    | none =>
      rw [hel] at hec
      simp at hec
    | some ec0 =>
      rw [hel] at hec
      simp only [Option.map_some'] at hec
      rw [Option.some.injEq] at hec
      rw [← hec]
      exact mapSet_self _ _ _

/-- C7 witness: with `{timestamp: 0, mode: "warning_acknowledged"}` cached
for `"hi"` and no element cache, the step at time 1000 consumes the entry and
an immediate re-submit at time 2000 misses the cache. -/
theorem c7_warning_ack_single_use_witness :
    ((getCachedResult 1000 "hi"
        (fun k => if k = "hi" then some { timestamp := 0, mode := "warning_acknowledged", converted := none } else none)
        none).result
      = some { timestamp := 0, mode := "warning_acknowledged", converted := none })
  ∧ ((guardCacheStep 1000 "hi"
        (fun k => if k = "hi" then some { timestamp := 0, mode := "warning_acknowledged", converted := none } else none)
        none).1 = .ackConsumed
      ∧ (guardCacheStep 2000 "hi"
          (guardCacheStep 1000 "hi"
            (fun k => if k = "hi" then some { timestamp := 0, mode := "warning_acknowledged", converted := none } else none)
            none).2.1
          (guardCacheStep 1000 "hi"
            (fun k => if k = "hi" then some { timestamp := 0, mode := "warning_acknowledged", converted := none } else none)
            none).2.2).1 = .miss) :=
  ⟨by decide,
   c7_warning_ack_single_use 1000 2000 "hi"
     (fun k => if k = "hi" then some { timestamp := 0, mode := "warning_acknowledged", converted := none } else none)
     none { timestamp := 0, mode := "warning_acknowledged", converted := none }
     (by decide) rfl⟩

/-! ### C9: staleness of the guard-mode setting -/

/-- C9 counterexample: after the content script's `getGuardMode` has cached
`"warn"`, a storage change to `"convert"` is applied to the background's own
state, yet the next evaluation's `getGuardMode` still returns the stale
`"warn"` — the cached flag is never invalidated, so the staleness is
unbounded rather than limited to a 30-second window. -/
theorem c9_guard_mode_counterexample :
    storageOnChangedGuardMode (some "convert") = "convert"
  ∧ (getGuardMode (.valid "convert")
      (getGuardMode (.valid "warn") ⟨false, "warn"⟩).2).1 = "warn"
  ∧ ("warn" : String) ≠ "convert" := by
  refine ⟨rfl, rfl, ?_⟩
  decide

/-- C9 (amended): the content script fetches the guard mode from the
background once and caches it for the lifetime of the page: once the cached
flag is set, every later `getGuardMode` call returns the cached value
unchanged — regardless of the background's current setting — and the flag
remains set, so an external change never reaches an already-loaded content
script's evaluations.  Only the background's own copy tracks storage changes
(via its `storage.onChanged` listener). -/
theorem c9_guard_mode_cached_indefinitely (resp : GuardModeResponse)
    (s : GuardModeState) (h : s.cached = true) :
    getGuardMode resp s = (s.mode, s) ∧ (getGuardMode resp s).2.cached = true := by
  unfold getGuardMode
  rw [if_pos h]
  exact ⟨rfl, h⟩

/-- C9 witness: with the mode `"convert"` cached, a call seeing a background
that now answers `"warn"` still returns `"convert"` and keeps the flag set. -/
theorem c9_guard_mode_cached_indefinitely_witness :
    (({ cached := true, mode := "convert" } : GuardModeState).cached = true)
  ∧ (getGuardMode (.valid "warn") { cached := true, mode := "convert" }
        = ("convert", { cached := true, mode := "convert" })
      ∧ (getGuardMode (.valid "warn")
          { cached := true, mode := "convert" }).2.cached = true) :=
  ⟨rfl, c9_guard_mode_cached_indefinitely (.valid "warn")
    { cached := true, mode := "convert" } rfl⟩

/-! ### C10: totality of the decision-service wrapper -/

/-- C10 counterexample: on a service response parsed as
`{action: "maybe", converted_text: "x"}` — an unrecognized action — the
wrapper returns action `"send"` but passes the parsed converted text through
instead of returning it empty. -/
theorem c10_decide_action_counterexample :
    (decideTextAction
        (fun _ => some { action := some "maybe", converted_text := some "x",
                         label := none, rationale := none })
        (.success (some "body"))).action = "send"
  ∧ (decideTextAction
        (fun _ => some { action := some "maybe", converted_text := some "x",
                         label := none, rationale := none })
        (.success (some "body"))).converted_text ≠ "" := by
  refine ⟨rfl, ?_⟩
  decide

/-- C10 (amended): `decideTextAction` is total and never propagates a service
error: for every parse behaviour and every service outcome the returned
action is exactly `"send"` or `"convert"` — `"convert"` precisely when the
parsed action is `"convert"`, so every failure or unrecognized action
resolves to `"send"`; a thrown service error yields the fail-safe
`{action: "send", converted_text: ""}` (an unrecognized action keeps the
parsed converted text, defaulted to empty, rather than forcing it empty);
and a response wrapped by `handleGuardDecision` never reaches the content
script's configurable fail-open/fail-closed policy branch. -/
theorem c10_decide_action_total (parse : String → Option ParsedDecision)
    (outcome : ServiceOutcome) (content : Option String) :
    ((decideTextAction parse outcome).action = "send"
      ∨ (decideTextAction parse outcome).action = "convert")
  ∧ decideTextAction parse .failure
      = { action := "send", converted_text := "", label := "",
          rationale := "결정 실패로 인한 안전 모드" }
  ∧ ((decideTextAction parse (.success content)).action
      = if ((parse (match content with
            | some s => if s = "" then "\x7b\x7d" else s
            | none => "\x7b\x7d")).getD {}).action = some "convert"
        then "convert" else "send")
  ∧ processDecisionResponse (some (handleGuardDecision parse outcome))
      ≠ .failOpenSend
  ∧ processDecisionResponse (some (handleGuardDecision parse outcome))
      ≠ .failClosedToast := by
  have hchar : ∀ c : Option String, (decideTextAction parse (.success c)).action
      = if ((parse (match c with
            | some s => if s = "" then "\x7b\x7d" else s
            | none => "\x7b\x7d")).getD {}).action = some "convert"
        then "convert" else "send" := by
    intro c
    unfold decideTextAction
    dsimp only
    cases hpa : ((parse (match c with
        | some s => if s = "" then "\x7b\x7d" else s
        | none => "\x7b\x7d")).getD {}).action with
    | none =>
      rw [if_neg (by simp), if_neg (by simp)]
    | some a =>
      by_cases ha : a = "convert"
      · subst ha
        rw [if_pos (Or.inl rfl), if_pos rfl]
        rfl
      · by_cases hs : a = "send"
        · subst hs
          rw [if_pos (Or.inr rfl), if_neg (by decide)]
          rfl
        · rw [if_neg (by simp [ha, hs]), if_neg (by simp [ha])]
  have haction : (decideTextAction parse outcome).action = "send"
      ∨ (decideTextAction parse outcome).action = "convert" := by
    cases outcome with
    | failure => left; rfl
    | success c =>
      rw [hchar c]
      by_cases hc : ((parse (match c with
          | some s => if s = "" then "\x7b\x7d" else s
          | none => "\x7b\x7d")).getD {}).action = some "convert"
      · right
        rw [if_pos hc]
      · left
        rw [if_neg hc]
  refine ⟨haction, rfl, hchar content, ?_, ?_⟩ <;>
    · unfold processDecisionResponse handleGuardDecision
      dsimp only
      rw [if_neg (by decide : ¬(true = false))]
      rcases haction with h | h
      · rw [if_pos h]
        decide
      · rw [if_neg (by rw [h]; decide)]
        decide

end BizTone
